import Mathlib

/-!
Verification of the timeline segmentation and hybrid GPU/CPU render pipeline.

The Python sources are embedded shallowly over exact rationals (ℚ stands for
Python floats, ℤ for Python ints).  Dynamic JSON-shaped data is embedded as
the inductive `PyVal`; Python exceptions as the error type `PyErr` together
with `Except`.  External collaborators (the ffmpeg engine, the GPU capability
probe, the media prober, tempfile allocation) are passed in as explicit
oracle parameters, mirroring §6 of the specification.

Abstractions, stated once here and noted at each definition:
* Python float decimal rendering is embedded as exact decimal rendering of
  the rational (`decRepr`); binary rounding of IEEE doubles is not modelled.
* `float(str)` accepts plain decimal literals; exotic forms ("1e3", "inf",
  "nan", underscores) are not modelled and are treated as parse failures.
* Filesystem side effects (temp files, the contents of generated ASS files)
  are abstracted; only values flowing into the filter strings and commands
  are kept.
-/

/-- A Python/JSON value, as handled by the edit-map parser. -/
inductive PyVal where
  | none
  | bool (b : Bool)
  | num (q : ℚ)
  | str (s : String)
  | list (l : List PyVal)
  | dict (entries : List (String × PyVal))

/-- The Python exceptions the embedded code can raise.  `nonTermination`
marks inputs on which the source code provably loops forever. -/
inductive PyErr where
  | valueError
  | typeError
  | keyError
  | attributeError
  | zeroDivisionError
  | runtimeError
  | nonTermination
deriving DecidableEq, Repr

/-- `d.get(key, dflt)` on a Python dict. -/
def pyGet (entries : List (String × PyVal)) (key : String) (dflt : PyVal) : PyVal :=
  match entries.find? (fun kv => kv.fst == key) with
  | Option.some kv => kv.snd
  | Option.none => dflt

/-- Value of a nonempty digit string. -/
def digitsVal (cs : List Char) : Option ℕ :=
  if cs.isEmpty then Option.none
  else cs.foldlM (fun acc c => if c.isDigit then Option.some (10 * acc + (c.toNat - '0'.toNat)) else Option.none) 0

/-- Python `float(s)` on a string: optional sign, digits, optional fraction.
Scientific notation, inf/nan and underscores are not modelled (they would
parse in Python; no claim below depends on them). -/
def pyFloatOfString (s : String) : Option ℚ :=
  let cs := ((s.toList.dropWhile (fun c => c.isWhitespace)).reverse.dropWhile
    (fun c => c.isWhitespace)).reverse
  let sign : ℚ × List Char :=
    match cs with
    | '-' :: rest => (-1, rest)
    | '+' :: rest => (1, rest)
    | _ => (1, cs)
  let body := sign.2
  let ip := body.takeWhile (fun c => c ≠ '.')
  let rest := body.dropWhile (fun c => c ≠ '.')
  match rest with
  | [] => (digitsVal ip).map (fun n => sign.1 * n)
  | _ :: fp =>
    if fp.isEmpty then (digitsVal ip).map (fun n => sign.1 * n)
    else if ip.isEmpty then (digitsVal fp).map (fun n => sign.1 * (n : ℚ) / 10 ^ fp.length)
    else
      match digitsVal ip, digitsVal fp with
      | Option.some a, Option.some b => Option.some (sign.1 * ((a : ℚ) + (b : ℚ) / 10 ^ fp.length))
      | _, _ => Option.none

/-- Python `float(v)`: numbers and bools convert, numeric strings parse,
everything else raises (`ValueError` for strings, `TypeError` otherwise). -/
def pyFloat : PyVal → Except PyErr ℚ
  | PyVal.num q => Except.ok q
  | PyVal.bool b => Except.ok (if b then 1 else 0)
  | PyVal.str s =>
    match pyFloatOfString s with
    | Option.some q => Except.ok q
    | Option.none => Except.error PyErr.valueError
  | PyVal.none => Except.error PyErr.typeError
  | PyVal.list _ => Except.error PyErr.typeError
  | PyVal.dict _ => Except.error PyErr.typeError

/-- Python `str(float)` for a rational with a terminating decimal expansion
(the only values reached by the claims); e.g. `2 ↦ "2.0"`, `1/2 ↦ "0.5"`. -/
def decRepr (q : ℚ) : String :=
  match (List.range 30).find? (fun k => (q * 10 ^ k).den = 1) with
  | Option.none => toString q
  | Option.some k =>
    let n := (q * 10 ^ k).num
    let ds := (toString n.natAbs).toList
    let cs := List.replicate (k + 1 - ds.length) '0' ++ ds
    let ip := (cs.take (cs.length - k)).asString
    let fp := (cs.drop (cs.length - k)).asString
    (if q < 0 then "-" else "") ++ ip ++ "." ++ (if k = 0 then "0" else fp)

/-- Python `kw in s` on strings: substring test. -/
def kwIn (kw s : String) : Bool :=
  s.toList.tails.any (fun t => kw.toList.isPrefixOf t)

/-- Python `s.replace(c, rep)` for a single-character pattern (the only form
the sources use). -/
def pyReplaceChar (s : String) (c : Char) (rep : String) : String :=
  (s.toList.flatMap (fun ch => if ch = c then rep.toList else [ch])).asString

/-- Python `s.lower()`. -/
def pyLower (s : String) : String := (s.toList.map Char.toLower).asString

/-- Python `s.endswith(suffix)`. -/
def pyEndsWith (s suffix : String) : Bool := suffix.toList.isSuffixOf s.toList

/-- `models.Edit`.  The Python field `end` is `stop` here (Lean keyword).
`type`, `zoom`, `is_locked` and `style` fields are stored unconverted by the
parser, hence typed `PyVal`. -/
structure Edit where
  type : PyVal
  stop : ℚ
  speed : ℚ
  start : ℚ
  anchor_x : ℚ
  anchor_y : ℚ
  zoom : PyVal
  is_locked : PyVal

/-- `models.Subtitle` (`end` is `stop` here). -/
structure Subtitle where
  text : String
  stop : ℚ
  start : ℚ
  style : PyVal
  is_locked : PyVal

/-- `models.Segment` (`end` is `stop` here). -/
structure Segment where
  stop : ℚ
  start : ℚ
  can_copy : Bool
  is_original : Bool
  edit : Option Edit
  needs_processing : Bool
  subtitles : List Subtitle

/-- `Segment.duration` property. -/
def Segment.duration (s : Segment) : ℚ := s.stop - s.start

/-- `v == "s"` in Python (string equality; no coercion from other types). -/
def pyIsStr (v : PyVal) (s : String) : Bool :=
  match v with
  | PyVal.str t => t == s
  | _ => false

/-- Python `v in ["none", 1.0]`: equal to the string `"none"`, or numerically
equal to 1 (Python `True == 1.0` holds, bools being ints). -/
def zoomInNoneOne (v : PyVal) : Bool :=
  pyIsStr v "none" ||
    (match v with
     | PyVal.num q => q == 1
     | PyVal.bool b => b
     | _ => false)

/-- `processor.analyzer.analyze_segment_processing`.  The module-level config
flags `DEBUG_OVERLAY` and `ENABLE_COLOR_GRADING` are passed explicitly. -/
def analyze_segment_processing (seg : Segment) (orig_w orig_h out_w out_h : ℤ)
    (debug_overlay color_grading : Bool) : Bool × Bool :=
  let r : Bool × Bool :=
    if seg.is_original && seg.subtitles.isEmpty && !debug_overlay then
      if orig_w = out_w ∧ orig_h = out_h ∧ color_grading = false then (false, true)
      else (true, false)
    else (true, false)
  match seg.edit with
  | Option.some e =>
    if e.speed ≠ 1 ∨ zoomInNoneOne e.zoom = false then (true, r.2) else r
  | Option.none => r

/-- The `while val > 2.0` stage loop of `effects.speed.build_speed_filters`:
emitted stage ratios and the remaining factor. -/
def atempoUp (val : ℚ) : List ℚ × ℚ :=
  if h : 2 < val then
    let r := atempoUp (val / 2)
    (2 :: r.1, r.2)
  else ([], val)
termination_by (⌈val⌉₊)
decreasing_by
  have hcv : (1 : ℕ) ≤ ⌈val⌉₊ := by
    rw [Nat.one_le_ceil_iff]
    linarith
  have hle : ⌈val / 2⌉₊ ≤ ⌈val⌉₊ - 1 := by
    rw [Nat.ceil_le]
    have hval : val ≤ (⌈val⌉₊ : ℚ) := Nat.le_ceil val
    have hcast : ((⌈val⌉₊ - 1 : ℕ) : ℚ) = (⌈val⌉₊ : ℚ) - 1 := by
      push_cast [Nat.cast_sub hcv]
      ring
    rw [hcast]
    linarith
  omega

/-- The `while val < 0.5` stage loop.  The guard `0 < val` is added for
termination: on `val ≤ 0` the source loops forever (that case is mapped to
`PyErr.nonTermination` by `build_speed_filters` before this loop runs). -/
def atempoDown (val : ℚ) : List ℚ × ℚ :=
  if h : 0 < val ∧ val < 1 / 2 then
    let r := atempoDown (val * 2)
    (1 / 2 :: r.1, r.2)
  else ([], val)
termination_by (⌈1 / val⌉₊)
decreasing_by
  have hv : 0 < val := h.1
  have h2 : 2 < 1 / val := by
    rw [lt_div_iff₀ hv]
    linarith [h.2]
  have hcv : (1 : ℕ) ≤ ⌈1 / val⌉₊ := by
    rw [Nat.one_le_ceil_iff]
    positivity
  have hle : ⌈1 / (val * 2)⌉₊ ≤ ⌈1 / val⌉₊ - 1 := by
    rw [Nat.ceil_le]
    have hval : 1 / val ≤ (⌈1 / val⌉₊ : ℚ) := Nat.le_ceil (1 / val)
    have hcast : ((⌈1 / val⌉₊ - 1 : ℕ) : ℚ) = (⌈1 / val⌉₊ : ℚ) - 1 := by
      push_cast [Nat.cast_sub hcv]
      ring
    rw [hcast]
    have : 1 / (val * 2) = (1 / val) / 2 := by
      field_simp
    rw [this]
    linarith
  omega

/-- The full atempo stage-ratio sequence for speed factor `v`
(`effects.speed.build_speed_filters`, audio branch). -/
def atempoRatios (v : ℚ) : List ℚ :=
  let r1 := atempoUp v
  let r2 := atempoDown r1.2
  r1.1 ++ r2.1 ++ (if (1 / 2 ≤ r2.2 ∧ r2.2 ≤ 2) ∧ r2.2 ≠ 1 then [r2.2] else [])

/-- `effects.speed.build_speed_filters`.  `speed = 0` raises
`ZeroDivisionError` at `1/speed_val`; a negative speed with audio makes the
doubling loop diverge (`nonTermination`). -/
def build_speed_filters (speed_val : ℚ) (has_audio : Bool) :
    Except PyErr (String × List String) :=
  if speed_val = 0 then Except.error PyErr.zeroDivisionError
  else if has_audio ∧ speed_val < 0 then Except.error PyErr.nonTermination
  else
    Except.ok ("setpts=" ++ decRepr (1 / speed_val) ++ "*PTS",
      if has_audio then (atempoRatios speed_val).map (fun r => "atempo=" ++ decRepr r) else [])

/-- Python `int(q)` for a float: truncation toward zero. -/
def pyInt (q : ℚ) : ℤ := Int.tdiv q.num (q.den : ℤ)

/-- Numeric value of a PyVal under Python's `<=` against a float: numbers and
bools compare, everything else raises `TypeError`. -/
def pyNumVal : PyVal → Except PyErr ℚ
  | PyVal.num q => Except.ok q
  | PyVal.bool b => Except.ok (if b then 1 else 0)
  | _ => Except.error PyErr.typeError

/-- `effects.zoom.build_zoom_filter`. -/
def build_zoom_filter (edit : Edit) (width height : ℤ) : Except PyErr (Option String) :=
  if pyIsStr edit.zoom "none" then Except.ok Option.none
  else
    match pyNumVal edit.zoom with
    | Except.error e => Except.error e
    | Except.ok zq =>
      if zq ≤ 1 then Except.ok Option.none
      else
        let zoom_level := zq
        let anchor_x := edit.anchor_x
        let anchor_y := edit.anchor_y
        let crop_w := pyInt ((width : ℚ) / zoom_level)
        let crop_h := pyInt ((height : ℚ) / zoom_level)
        let crop_x := pyInt (anchor_x * (width : ℚ) - (crop_w : ℚ) / 2)
        let crop_y := pyInt (anchor_y * (height : ℚ) - (crop_h : ℚ) / 2)
        let crop_x := max 0 (min crop_x (width - crop_w))
        let crop_y := max 0 (min crop_y (height - crop_h))
        Except.ok (Option.some
          ("crop_cuda=" ++ toString crop_w ++ ":" ++ toString crop_h ++ ":" ++
            toString crop_x ++ ":" ++ toString crop_y ++
            ",scale_cuda=" ++ toString width ++ ":" ++ toString height))

/-- Path escaping in `effects.caption.build_subtitle_filter`. -/
def escapeAssPath (p : String) : String :=
  pyReplaceChar (pyReplaceChar (pyReplaceChar p '\\' "/") ':' "\\:") '\'' "'\\''"

/-- `effects.caption.build_subtitle_filter`.  The `tempfile.mkstemp` path of
the generated ASS file is abstracted as the parameter `ass_path`; the file's
style-dependent contents are written to disk and never reach the returned
filter string, so they are not modelled. -/
def build_subtitle_filter (ass_path : String) (_subtitle : Subtitle)
    (_segment_start : ℚ) (_width _height : ℤ) : String :=
  "subtitles=filename='" ++ escapeAssPath ass_path ++ "'"

/-- The `(text, start, end)` dedup key of `effects.registry.get_segment_filters`. -/
def subKey (s : Subtitle) : String × ℚ × ℚ := (s.text, s.start, s.stop)

/-- The subtitle loop of `effects.registry.get_segment_filters`: keeps each
subtitle whose key was not already seen. -/
def keptSubs (seen : List (String × ℚ × ℚ)) : List Subtitle → List Subtitle
  | [] => []
  | sub :: rest =>
    if subKey sub ∈ seen then keptSubs seen rest
    else sub :: keptSubs (subKey sub :: seen) rest

/-- The edit-based part (step 2) of `effects.registry.get_segment_filters`:
speed filters when `edit.speed != 1.0`, then the zoom filter when
`edit.type == "zoom" or edit.zoom not in ["none", 1.0]`. -/
def editFilters (seg : Segment) (width height : ℤ) (has_audio : Bool) :
    Except PyErr (List String × List String) :=
  match seg.edit with
  | Option.none => Except.ok ([], [])
  | Option.some edit =>
    match (if edit.speed ≠ 1 then
        (match build_speed_filters edit.speed has_audio with
         | Except.error e => Except.error e
         | Except.ok r => Except.ok ([r.1], r.2))
      else Except.ok ([], [])) with
    | Except.error e => Except.error e
    | Except.ok sp =>
      match (if pyIsStr edit.type "zoom" ∨ zoomInNoneOne edit.zoom = false then
          (match build_zoom_filter edit width height with
           | Except.error e => Except.error e
           | Except.ok z =>
             Except.ok (match z with | Option.some f => [f] | Option.none => []))
        else Except.ok []) with
      | Except.error e => Except.error e
      | Except.ok zf => Except.ok (sp.1 ++ zf, sp.2)

/-- `effects.registry.get_segment_filters`.  `assPathOf` is the tempfile
collaborator: the ASS path allocated for a given subtitle. -/
def get_segment_filters (assPathOf : Subtitle → String) (seg : Segment)
    (width height : ℤ) (has_audio : Bool) :
    Except PyErr (List String × List String) :=
  match editFilters seg width height has_audio with
  | Except.error e => Except.error e
  | Except.ok ea =>
    Except.ok
      (ea.1 ++ (keptSubs [] seg.subtitles).map
        (fun sub => build_subtitle_filter (assPathOf sub) sub seg.start width height),
       ea.2)

/-! ### Config constants (`config.py`), environment defaults -/

def SMART_COPY_MODE : Bool := true

def USE_SCALE_CUDA : Bool := true

def GPU_SCALE_ALGO : String := "lanczos"

def DEBUG_OVERLAY : Bool := false

def ENABLE_COLOR_GRADING : Bool := false

def FINAL_UP_COMPRESS : Bool := false

def FFMPEG_BIN : String := "ffmpeg"

def AUDIO_BITRATE : String := "128k"

def CQ_QUALITY : ℕ := 23

def GPU_PRESET : String := "p2"

def GPU_TUNE : String := "hq"

def NVENC_MAXRATE : String := "5M"

def NVENC_BUFSIZE : String := "10M"

def NVENC_RC_LOOKAHEAD : ℕ := 20

def NVENC_SURFACES : ℕ := 32

def DECODER_THREADS : ℕ := 2

def WATERMARK_URL : String := ""

def WATERMARK_SCALE : ℚ := 8 / 100

def WATERMARK_OPACITY : ℚ := 8 / 10

def WATERMARK_PADDING : ℚ := 8 / 10

def WATERMARK_POSITION : String := "bottom_left"

def RESOLUTION_PRESETS : List (String × (ℤ × ℤ)) :=
  [("1080p", (1920, 1080)), ("720p", (1280, 720)), ("480p", (854, 480)), ("360p", (640, 360))]

/-! ### Timeline builder (`processor/timeline.py`) -/

/-- `max(0.0, min(x, total_duration))`. -/
def clampB (x total_duration : ℚ) : ℚ := max 0 (min x total_duration)

/-- The boundary-instant set: `{0.0, total_duration}` plus both clamped
endpoints of every edit. -/
def boundarySet (edits : List Edit) (total_duration : ℚ) : Finset ℚ :=
  edits.foldl
    (fun s e => insert (clampB e.start total_duration) (insert (clampB e.stop total_duration) s))
    (insert 0 {total_duration})

/-- `sorted(list(boundaries))`. -/
def sortedPoints (edits : List Edit) (total_duration : ℚ) : List ℚ :=
  (boundarySet edits total_duration).sort (· ≤ ·)

/-- Consecutive pairs `(sorted_points[i], sorted_points[i+1])`. -/
def pairsOf : List ℚ → List (ℚ × ℚ)
  | a :: b :: rest => (a, b) :: pairsOf (b :: rest)
  | _ => []

/-- The `is_cut` helper of `create_segments`. -/
def is_cut (edits : List Edit) (start stop : ℚ) : Bool :=
  edits.any (fun e =>
    pyIsStr e.type "cut" && !(decide (stop ≤ e.start) || decide (start ≥ e.stop)))

/-- `processor.timeline.create_segments`.  The loop body's `continue` guard
becomes a `filter`; the segment construction and in-place annotation by
`analyze_segment_processing` (with the config flags `DEBUG_OVERLAY`,
`ENABLE_COLOR_GRADING`) become the mapped function. -/
def create_segments (edits : List Edit) (subtitles : List Subtitle) (total_duration : ℚ)
    (orig_w orig_h out_w out_h : ℤ) : List Segment :=
  let sorted_points := sortedPoints edits total_duration
  ((pairsOf sorted_points).filter
      (fun p => !(decide (p.2 - p.1 < 1 / 1000) || is_cut edits p.1 p.2))).map
    (fun p =>
      let active_edit := edits.find?
        (fun e => !pyIsStr e.type "cut" && !(decide (p.2 ≤ e.start) || decide (p.1 ≥ e.stop)))
      let overlapping_subs := subtitles.filter
        (fun s => !(decide (s.stop ≤ p.1) || decide (s.start ≥ p.2)))
      let seg : Segment :=
        { stop := p.2, start := p.1, can_copy := false, is_original := active_edit.isNone,
          edit := active_edit, needs_processing := true, subtitles := overlapping_subs }
      let nc := analyze_segment_processing seg orig_w orig_h out_w out_h
        DEBUG_OVERLAY ENABLE_COLOR_GRADING
      { seg with needs_processing := nc.1, can_copy := nc.2 })

/-! ### Edit-map parser (`processor/analyzer.py`) -/

/-- Python `str(v)` as far as the parser needs it (`str(s.get("text", ""))`).
Container reprs are not modelled (no claim depends on them). -/
def pyStr : PyVal → String
  | PyVal.str s => s
  | PyVal.num q => decRepr q
  | PyVal.bool b => if b then "True" else "False"
  | PyVal.none => "None"
  | PyVal.list _ => "<list>"
  | PyVal.dict _ => "<dict>"

/-- `for e in v`: lists iterate elements, strings iterate characters, dicts
iterate keys; other values raise `TypeError`. -/
def pyIterEntries : PyVal → Except PyErr (List PyVal)
  | PyVal.list l => Except.ok l
  | PyVal.str s => Except.ok (s.toList.map (fun c => PyVal.str (String.mk [c])))
  | PyVal.dict d => Except.ok (d.map (fun kv => PyVal.str kv.fst))
  | _ => Except.error PyErr.typeError

/-- The `try` block of the edits loop of `parse_edit_map`: the `Edit(...)`
keyword arguments in source order.  `float(...)` can raise ValueError or
TypeError. -/
def editTryBlock (d : List (String × PyVal)) : Except PyErr Edit := do
  let zoom := pyGet d "zoom" (PyVal.num 1)
  let stopQ ← pyFloat (pyGet d "end" (PyVal.num 0))
  let ty := pyGet d "type" (PyVal.str "zoom")
  let startQ ← pyFloat (pyGet d "start" (PyVal.num 0))
  let speedQ ← pyFloat (pyGet d "speed" (PyVal.num 1))
  let locked := pyGet d "isLocked" (PyVal.bool false)
  let ax ← pyFloat (pyGet d "anchorX" (PyVal.num (1 / 2)))
  let ay ← pyFloat (pyGet d "anchorY" (PyVal.num (1 / 2)))
  Except.ok (Edit.mk ty stopQ speedQ startQ ax ay zoom locked)

/-- The `try` block of the subtitles loop of `parse_edit_map`. -/
def subTryBlock (d : List (String × PyVal)) : Except PyErr Subtitle := do
  let style := pyGet d "style" (PyVal.dict [])
  let stopQ ← pyFloat (pyGet d "end" (PyVal.num 0))
  let text := pyStr (pyGet d "text" (PyVal.str ""))
  let startQ ← pyFloat (pyGet d "start" (PyVal.num 0))
  let locked := pyGet d "isLocked" (PyVal.bool false)
  Except.ok (Subtitle.mk text stopQ startQ style locked)

/-- One iteration of the edits loop of `parse_edit_map`.  For a dict entry
the `try` block runs: every error it can raise (ValueError/TypeError from
`float`) is in the caught tuple `(ValueError, TypeError, KeyError)`, so a
failing field conversion skips the entry (`Option.none`).  A non-dict entry
raises `AttributeError` at `e.get`, which the `except` clause does NOT
catch. -/
def parseEditEntry (e : PyVal) : Except PyErr (Option Edit) :=
  match e with
  | PyVal.dict d =>
    (match editTryBlock d with
     | Except.ok ed => Except.ok (Option.some ed)
     | Except.error _ => Except.ok Option.none)
  | _ => Except.error PyErr.attributeError

/-- One iteration of the subtitles loop of `parse_edit_map`; same error
discipline as `parseEditEntry`. -/
def parseSubtitleEntry (s : PyVal) : Except PyErr (Option Subtitle) :=
  match s with
  | PyVal.dict d =>
    (match subTryBlock d with
     | Except.ok sb => Except.ok (Option.some sb)
     | Except.error _ => Except.ok Option.none)
  | _ => Except.error PyErr.attributeError

/-- Run an entry parser over a list, appending the entries it keeps and
propagating the errors it raises. -/
def collectEntries {α : Type} (f : PyVal → Except PyErr (Option α)) :
    List PyVal → Except PyErr (List α)
  | [] => Except.ok []
  | e :: rest => do
    let r ← f e
    let others ← collectEntries f rest
    Except.ok (match r with | Option.some x => x :: others | Option.none => others)

/-- `processor.analyzer.parse_edit_map`. -/
def parse_edit_map (data : PyVal) : Except PyErr (List Edit × List Subtitle) :=
  match data with
  | PyVal.dict d => do
    let editEntries ← pyIterEntries (pyGet d "edits" (PyVal.list []))
    let edits ← collectEntries parseEditEntry editEntries
    let subEntries ← pyIterEntries (pyGet d "subtitles" (PyVal.list []))
    let subs ← collectEntries parseSubtitleEntry subEntries
    Except.ok (edits, subs)
  | _ => Except.ok ([], [])

/-! ### Filter-chain planner (`processor/segment_renderer.py`) -/

/-- `utils.text.escape_filter_text`. -/
def escape_filter_text (text : String) : String :=
  pyReplaceChar (pyReplaceChar (pyReplaceChar (pyReplaceChar (pyReplaceChar
    text '\\' "\\\\") '\'' "'\\\\\\''") ':' "\\:") '[' "\\[") ']' "\\]"

def CPU_ONLY_FILTERS : List String :=
  ["drawtext", "subtitles", "eq", "curves", "color", "hue", "lut"]

/-- Python truthiness of an optional path (None and "" are falsy). -/
def pyOptTruthy (o : Option String) : Bool :=
  match o with
  | Option.some s => !s.isEmpty
  | Option.none => false

/-- `processor.segment_renderer.requires_cpu_filters`. -/
def requires_cpu_filters (video_filters : List String) (debug_overlay : Bool)
    (watermark_path : Option String := Option.none) : Bool :=
  if pyOptTruthy watermark_path then true
  else if debug_overlay then true
  else video_filters.any (fun f =>
    CPU_ONLY_FILTERS.any (fun kw => kwIn kw f) ||
    (kwIn "scale=" f && !kwIn "_cuda" f && !kwIn "_npp" f) ||
    (kwIn "crop=" f && !kwIn "_cuda" f && !kwIn "_npp" f) ||
    (kwIn "format=" f && !kwIn "format=cuda" f && !kwIn "format=nv12" f) ||
    kwIn "setpts" f ||
    kwIn "setsar" f)

/-- Zero-padded `f"seg_{i:04d}"` index. -/
def pad4 (i : ℕ) : String :=
  let s := toString i
  (List.replicate (4 - s.length) '0').asString ++ s

/-- `processor.segment_renderer._build_gpu_filter_chain`. -/
def build_gpu_filter_chain (_seg : Segment) (out_w out_h orig_w orig_h : ℤ)
    (_has_audio : Bool) (debug_overlay : Bool) (seg_idx : ℕ) (reg_v : List String)
    (_is_paid : Bool) : List String :=
  let needs_cpu := requires_cpu_filters reg_v debug_overlay Option.none
  if needs_cpu then
    let fs := ["format=nv12"]
    let has_manual_scale := reg_v.any (fun f => kwIn "scale=" f)
    let fs := fs ++
      (if (out_w ≠ orig_w ∨ out_h ≠ orig_h) ∧ has_manual_scale = false then
        ["scale=" ++ toString out_w ++ ":" ++ toString out_h ++ ":flags=lanczos"]
      else [])
    let fs := fs ++ reg_v
    let fs := fs ++
      (if debug_overlay then
        ["drawtext=text='" ++ escape_filter_text ("[" ++ toString seg_idx ++ "]") ++
          "':fontcolor=yellow:fontsize=20:box=1:boxcolor=black@0.7:x=10:y=10"]
      else [])
    fs ++ ["setsar=1", "format=yuv420p"]
  else
    let fs := ["format=cuda"]
    let fs := fs ++
      (if out_w ≠ orig_w ∨ out_h ≠ orig_h then
        [(if USE_SCALE_CUDA then "scale_cuda" else "scale_npp") ++ "=" ++ toString out_w ++
          ":" ++ toString out_h ++ ":interp_algo=" ++ GPU_SCALE_ALGO]
      else [])
    fs ++ reg_v

/-! ### Watermark filter builders (`effects/watermark.py`) -/

/-- `effects.watermark.calculate_position` (the padding config value is the
float `0.8`, rendered as Python would render it in the f-string). -/
def calculate_position (position : String) (_video_width _video_height wm_width : ℤ)
    (padding : ℚ) : String × String :=
  let _ := wm_width
  let p := decRepr padding
  if position == "top_left" then (p, p)
  else if position == "top_right" then ("W-w-" ++ p, p)
  else if position == "bottom_left" then (p, "H-h-" ++ p)
  else if position == "bottom_right" then ("W-w-" ++ p, "H-h-" ++ p)
  else (p, "H-h-" ++ p)

/-- `effects.watermark.build_watermark_filter_integrated`. -/
def build_watermark_filter_integrated (video_width video_height : ℤ)
    (input_label output_label : String) : Option String :=
  if WATERMARK_URL.isEmpty then Option.none
  else
    let wm_width := pyInt ((video_width : ℚ) * WATERMARK_SCALE)
    let pos := calculate_position WATERMARK_POSITION video_width video_height wm_width
      WATERMARK_PADDING
    let scale := "scale=" ++ toString wm_width ++ ":-1"
    let opacity := "format=rgba,colorchannelmixer=aa=" ++ decRepr WATERMARK_OPACITY
    Option.some ("[1:v]" ++ scale ++ "," ++ opacity ++ "[wm];" ++ input_label ++
      "[wm]overlay=" ++ pos.1 ++ ":" ++ pos.2 ++ ":shortest=1" ++ output_label)

/-- `effects.watermark.build_watermark_filter_gpu`. -/
def build_watermark_filter_gpu (video_width video_height : ℤ) : Option String :=
  if WATERMARK_URL.isEmpty then Option.none
  else
    let wm_width := pyInt ((video_width : ℚ) * WATERMARK_SCALE)
    let pos := calculate_position WATERMARK_POSITION video_width video_height wm_width
      WATERMARK_PADDING
    let scale := "scale_cuda=" ++ toString wm_width ++ ":-1:format=nv12"
    let opacity := "format=rgba,colorchannelmixer=aa=" ++ decRepr WATERMARK_OPACITY
    Option.some ("[1:v]" ++ opacity ++ ",hwupload_cuda," ++ scale ++
      "[wm];[v_in][wm]overlay_cuda=" ++ pos.1 ++ ":" ++ pos.2)

/-- Python `f"{v}"` on an optional string: `None` prints as "None". -/
def pyStrOfOpt (o : Option String) : String :=
  match o with
  | Option.some s => s
  | Option.none => "None"

/-! ### Render orchestration (`processor/segment_renderer.py`,
`processor/final_renderer.py`, legacy `handler.py`) -/

/-- External collaborators of §6: the cached GPU capability probe
(`utils.gpu.check_gpu_support`) and the external encode engine
(`utils.ffmpeg.run_ffmpeg`: `run cmd = true` means exit code 0; a false
result makes `run_ffmpeg` raise `RuntimeError`). -/
structure EngineOracle where
  gpuSupport : Bool
  run : List String → Bool

/-- The 13-element argument tuple built by
`processor.final_renderer.render_final_video` for one segment render. -/
structure RenderArgs where
  i : ℕ
  seg : Segment
  input_path : String
  temp_dir : String
  fps : ℚ
  debug_overlay : Bool
  has_audio : Bool
  orig_w : ℤ
  orig_h : ℤ
  out_w : ℤ
  out_h : ℤ
  is_paid : Bool
  watermark_path : Option String

/-- `processor.segment_renderer._render_cpu_fallback`.  Its first statement
unpacks 11 names `(i, seg, ..., out_h) = args` from the 13-element tuple of
`RenderArgs`, so every call raises `ValueError: too many values to unpack`
before any command is built (the body below that line also references
`ENCODING_PRESET` and `CRF_QUALITY`, which the module never imports).  No
engine invocation happens. -/
def _render_cpu_fallback (_args : RenderArgs) (_temp_out : String) :
    List (List String) × Except PyErr String :=
  ([], Except.error PyErr.valueError)

/-- The smart-copy command (`render_segment_smart`, SMART COPY section). -/
def segCopyCmd (args : RenderArgs) (temp_out : String) : List String :=
  [FFMPEG_BIN, "-y", "-ss", decRepr args.seg.start, "-t", decRepr args.seg.duration,
    "-i", args.input_path, "-c", "copy", "-avoid_negative_ts", "make_zero", temp_out]

/-- The hardware-path ffmpeg command built by `render_segment_smart` after
the GPU-availability check: decoder setup, optional watermark input, filter
complex (via `_build_gpu_filter_chain`), audio mapping and the NVENC encode
parameters. -/
def gpuCmd (args : RenderArgs)
    (reg_v reg_a : List String) (temp_out : String) : List String :=
  let apply_wm := !args.is_paid && pyOptTruthy args.watermark_path && !FINAL_UP_COMPRESS
  let needs_cpu := requires_cpu_filters reg_v args.debug_overlay
    (if apply_wm then args.watermark_path else Option.none)
  let cmd := [FFMPEG_BIN, "-y", "-hwaccel", "cuda"]
  let cmd := cmd ++
    (if needs_cpu then ["-hwaccel_output_format", "nv12"]
     else ["-hwaccel_output_format", "cuda"])
  let cmd := cmd ++ ["-hwaccel_device", "0", "-extra_hw_frames", "8",
    "-threads", toString DECODER_THREADS, "-ss", decRepr args.seg.start,
    "-t", decRepr args.seg.duration, "-i", args.input_path]
  let cmd := cmd ++
    (if apply_wm then
      let wmp := args.watermark_path.getD ""
      if pyEndsWith (pyLower wmp) ".gif" then ["-ignore_loop", "0", "-i", wmp]
      else ["-loop", "1", "-i", wmp]
    else [])
  let gpu_filters := build_gpu_filter_chain args.seg args.out_w args.out_h args.orig_w
    args.orig_h args.has_audio args.debug_overlay args.i reg_v args.is_paid
  let v_chain := String.intercalate "," gpu_filters
  let v_final :=
    if needs_cpu then
      if apply_wm then
        let wm_filter := build_watermark_filter_integrated args.out_w args.out_h
          "[v_pre_wm]" "[v_cpu]"
        "[0:v]" ++ v_chain ++ "[v_pre_wm];" ++ pyStrOfOpt wm_filter ++
          ";[v_cpu]hwupload_cuda[v]"
      else "[0:v]" ++ v_chain ++ ",hwupload_cuda[v]"
    else
      if apply_wm then
        "[0:v]" ++ v_chain ++ "[v_in];" ++
          pyStrOfOpt (build_watermark_filter_gpu args.out_w args.out_h) ++ "[v]"
      else "[0:v]" ++ v_chain ++ "[v]"
  let cmd := cmd ++
    (if args.has_audio && !reg_a.isEmpty then
      ["-filter_complex", v_final ++ ";[0:a]" ++ String.intercalate "," reg_a ++ "[a]",
        "-map", "[v]", "-map", "[a]", "-c:a", "aac", "-b:a", AUDIO_BITRATE]
    else
      ["-filter_complex", v_final, "-map", "[v]"] ++
        (if args.has_audio then ["-map", "0:a:0", "-c:a", "aac", "-b:a", AUDIO_BITRATE]
         else []))
  cmd ++ ["-c:v", "h264_nvenc", "-preset", GPU_PRESET, "-tune", GPU_TUNE,
    "-rc", "vbr", "-cq", toString CQ_QUALITY, "-b:v", "0",
    "-maxrate", NVENC_MAXRATE, "-bufsize", NVENC_BUFSIZE, "-profile:v", "high",
    "-spatial_aq", "1", "-temporal_aq", "1",
    "-rc-lookahead", toString NVENC_RC_LOOKAHEAD, "-surfaces", toString NVENC_SURFACES,
    "-movflags", "+faststart", "-fps_mode", "passthrough", temp_out]

/-- `processor.segment_renderer.render_segment_smart`.  Returns the list of
engine invocations attempted (in order) together with the result: the
returned output path, or the Python exception that propagates.  Note the
hardware invocation is NOT wrapped in any `try`: if the engine fails, the
`RuntimeError` from `run_ffmpeg` propagates directly. -/
def render_segment_smart (o : EngineOracle) (assPathOf : Subtitle → String)
    (args : RenderArgs) : List (List String) × Except PyErr String :=
  let temp_out := args.temp_dir ++ "/seg_" ++ pad4 args.i ++ ".mp4"
  if args.seg.can_copy && SMART_COPY_MODE then
    let cmd := segCopyCmd args temp_out
    ([cmd], if o.run cmd then Except.ok temp_out else Except.error PyErr.runtimeError)
  else if !o.gpuSupport then
    _render_cpu_fallback args temp_out
  else
    match get_segment_filters assPathOf args.seg args.out_w args.out_h args.has_audio with
    | Except.error e => ([], Except.error e)
    | Except.ok rv =>
      let cmd := gpuCmd args rv.1 rv.2 temp_out
      ([cmd], if o.run cmd then Except.ok temp_out else Except.error PyErr.runtimeError)

/-- `utils.video.get_output_resolution`. -/
def get_output_resolution (original_width original_height : ℤ)
    (requested_res : String) : ℤ × ℤ :=
  match RESOLUTION_PRESETS.find? (fun kv => kv.fst == requested_res) with
  | Option.none => (original_width, original_height)
  | Option.some kv => if requested_res == "original" then (original_width, original_height) else kv.snd

/-- The media prober and filesystem collaborators (`utils.video.get_video_info`,
`os.path.getsize`).  `durationOf` is the probed duration of a media file —
available to the pipeline, consulted or not. -/
structure ProbeOracle where
  widthOf : String → ℤ
  heightOf : String → ℤ
  durationOf : String → ℚ
  fpsOf : String → ℚ
  hasAudioOf : String → Bool
  sizeOf : String → ℚ

/-- `list(executor.map(f, args))` over already-computed per-segment results:
results are yielded in submission order and the first stored exception
re-raises when reached, aborting the whole list. -/
def collectResultsInOrder : List (Except PyErr String) → Except PyErr (List String)
  | [] => Except.ok []
  | r :: rest => do
    let x ← r
    let xs ← collectResultsInOrder rest
    Except.ok (x :: xs)

/-- Stable insertion into a list sorted by segment index
(`segment_files.sort(key=lambda x: x[0])`). -/
def insByFst (x : ℕ × String) : List (ℕ × String) → List (ℕ × String)
  | [] => [x]
  | y :: ys => if x.fst < y.fst then x :: y :: ys else y :: insByFst x ys

/-- Stable sort by segment index. -/
def sortByFst : List (ℕ × String) → List (ℕ × String)
  | [] => []
  | x :: xs => insByFst x (sortByFst xs)

/-- The lossless concat command of `processor.final_renderer.render_final_video`. -/
def finalConcatCmd (concat_list output_path : String) : List String :=
  [FFMPEG_BIN, "-y", "-f", "concat", "-safe", "0", "-fflags", "+genpts",
    "-i", concat_list, "-c", "copy", "-movflags", "+faststart", output_path]

/-- The `concat.txt` contents (absolute-path resolution abstracted: paths are
used as given). -/
def concatListContent (files : List (ℕ × String)) : String :=
  String.join (files.map (fun f => "file '" ++ f.snd ++ "'\n"))

/-- What `render_final_video` observably produces on success: the ordered
segment files fed to concat, the concat command, and the printed output
statistics.  The source computes `output_size` and timing after the concat
invocation; it never probes the produced file's duration. -/
structure FinalReport where
  segment_files : List (ℕ × String)
  concat_list_content : String
  concat_cmd : List String
  output_size_mb : ℚ

/-- The `render_args` tuples prepared by
`processor.final_renderer.render_final_video` (one per segment, in timeline
order). -/
def mkRenderArgs (probe : ProbeOracle) (segments : List Segment)
    (input_path : String) (output_res : String) (is_paid : Bool)
    (watermark_path : Option String) : List RenderArgs :=
  let temp_dir := "temp_spliceo_v2"
  let orig_w := probe.widthOf input_path
  let orig_h := probe.heightOf input_path
  let wh := get_output_resolution orig_w orig_h output_res
  let rw := if FINAL_UP_COMPRESS then (orig_w, orig_h) else wh
  segments.enum.map (fun p =>
    RenderArgs.mk p.fst p.snd input_path temp_dir (probe.fpsOf input_path) DEBUG_OVERLAY
      (probe.hasAudioOf input_path) orig_w orig_h rw.1 rw.2 is_paid watermark_path)

/-- `processor.final_renderer.render_final_video` (the active orchestrator).
Rendering runs through `render_segment_smart`; `list(executor.map(...))`
re-raises the first per-segment exception, which the surrounding
`try/except` only logs and re-raises — so any one failing segment aborts the
whole job.  After concat, only `os.path.getsize` is consulted for the
report. -/
def render_final_video (o : EngineOracle) (probe : ProbeOracle)
    (assPathOf : Subtitle → String) (segments : List Segment)
    (input_path output_path : String) (output_res : String) (is_paid : Bool)
    (watermark_path : Option String) : Except PyErr FinalReport :=
  let temp_dir := "temp_spliceo_v2"
  let render_args := mkRenderArgs probe segments input_path output_res is_paid watermark_path
  match collectResultsInOrder
      (render_args.map (fun a => (render_segment_smart o assPathOf a).2)) with
  | Except.error e => Except.error e
  | Except.ok files =>
    let segment_files := files.enum
    let sorted := sortByFst segment_files
    let concat_list := temp_dir ++ "/concat.txt"
    let cmd := finalConcatCmd concat_list output_path
    if o.run cmd then
      Except.ok
        { segment_files := sorted,
          concat_list_content := concatListContent sorted,
          concat_cmd := cmd,
          output_size_mb := probe.sizeOf output_path / (1024 * 1024) }
    else Except.error PyErr.runtimeError

/-- The collection loop of the legacy orchestrator
(`handler.py::render_final_video`, lines 849–875): futures are iterated in
submission order; a successful future appends `(idx, file)` to
`segment_files`, a raising future (error or per-segment timeout) appends the
index to `failed_segments`. -/
def handlerCollect (outcomes : List (Except PyErr String)) :
    List (ℕ × String) × List ℕ :=
  (outcomes.enum.filterMap (fun p =>
      match p.snd with
      | Except.ok f => Option.some (p.fst, f)
      | Except.error _ => Option.none),
   outcomes.enum.filterMap (fun p =>
      match p.snd with
      | Except.ok _ => Option.none
      | Except.error _ => Option.some p.fst))

/-- `handler.py::render_final_video` (legacy orchestrator), from the futures
loop onward, over the per-segment outcomes and the concat invocation result.
If no segment succeeded it raises `RuntimeError("No segments rendered
successfully!")`; otherwise it proceeds to concatenate the successful
segments sorted by index.  The failed indices are only printed: the source
function returns `None`, so the pair below (failed indices, concatenated
files) makes the observable behaviour available to the theorems — neither
value is returned to the caller by the source. -/
def handler_render_final_video (outcomes : List (Except PyErr String))
    (concatOk : Bool) : List ℕ × Except PyErr (List (ℕ × String)) :=
  let c := handlerCollect outcomes
  if c.1.isEmpty then (c.2, Except.error PyErr.runtimeError)
  else if concatOk then (c.2, Except.ok (sortByFst c.1))
  else (c.2, Except.error PyErr.runtimeError)

/-! ### Vocabulary for the claims -/

/-- Modelled from the spec (§4.3 domain model): the device-pure (GPU-memory)
operations in this pipeline are the hardware scale/crop filters, i.e. the
`*_cuda` / `*_npp` ffmpeg filters; `hwupload*` is the explicit
domain-transition operator, not a frame operation, and is excluded. -/
def isDeviceOnlyFilter (f : String) : Bool :=
  (kwIn "_cuda" f || kwIn "_npp" f) && !kwIn "hwupload" f

/-- The entry a dict edits-list element contributes (if any): `some` when the
`try` block completes, `none` when a caught error skips it. -/
def keptEdit (e : PyVal) : Option Edit :=
  match e with
  | PyVal.dict d => (editTryBlock d).toOption
  | _ => Option.none

/-- The entry a dict subtitles-list element contributes (if any). -/
def keptSubtitle (s : PyVal) : Option Subtitle :=
  match s with
  | PyVal.dict d => (subTryBlock d).toOption
  | _ => Option.none

/-- The inter-boundary intervals that `create_segments` discards (the
`continue` branch): sub-ε gaps and cut-covered intervals. -/
def discardedPairs (edits : List Edit) (total_duration : ℚ) : List (ℚ × ℚ) :=
  (pairsOf (sortedPoints edits total_duration)).filter
    (fun p => (decide (p.2 - p.1 < 1 / 1000) || is_cut edits p.1 p.2))

/-- A zoom-kind edit whose clamped endpoints create two sub-millisecond
boundary gaps in a 10-second timeline (used to probe the timeline builder's
gap-dropping accounting). -/
def ce4 : Edit :=
  { type := PyVal.str "zoom", stop := 9/5000, speed := 1, start := 9/10000,
    anchor_x := 1/2, anchor_y := 1/2, zoom := PyVal.num 1, is_locked := PyVal.bool false }

/-! ## Theorems -/

/-! ### Shared lemmas: edit-map parser -/

theorem parseEditEntry_dict (d : List (String × PyVal)) :
    parseEditEntry (PyVal.dict d) = Except.ok (keptEdit (PyVal.dict d)) := by
  simp only [parseEditEntry, keptEdit]
  cases editTryBlock d <;> rfl

theorem parseSubtitleEntry_dict (d : List (String × PyVal)) :
    parseSubtitleEntry (PyVal.dict d) = Except.ok (keptSubtitle (PyVal.dict d)) := by
  simp only [parseSubtitleEntry, keptSubtitle]
  cases subTryBlock d <;> rfl

theorem collectEntries_ok {α : Type} (f : PyVal → Except PyErr (Option α))
    (g : PyVal → Option α) (l : List PyVal) (h : ∀ e ∈ l, f e = Except.ok (g e)) :
    collectEntries f l = Except.ok (l.filterMap g) := by
  induction l with
  | nil => rfl
  | cons e rest ih =>
    have he : f e = Except.ok (g e) := h e (List.mem_cons_self e rest)
    have hr : collectEntries f rest = Except.ok (rest.filterMap g) :=
      ih (fun x hx => h x (List.mem_cons_of_mem e hx))
    simp only [collectEntries, he, hr, List.filterMap_cons]
    cases g e <;> rfl

/-- C8 counterexample: the edit-map `{"edits": [42]}` contains a single
malformed entry (not a dict); `42 .get(...)` raises `AttributeError`, which
the per-entry `except (ValueError, TypeError, KeyError)` does not catch, so
the parse of the whole map fails — contradicting the claim that no single
malformed entry is fatal. -/
theorem C8_counterexample :
    parse_edit_map (PyVal.dict [("edits", PyVal.list [PyVal.num 42])]) =
      Except.error PyErr.attributeError := rfl

/-- C8 (amended): for every edit-map document whose `edits` and `subtitles`
lists contain only dictionary entries, each malformed entry is skipped
individually and the parse returns exactly the successfully parsed remaining
entries; only a non-dictionary entry escalates to a parse failure of the
whole map. -/
theorem C8_dict_entries_skipped_individually (es ss : List PyVal)
    (he : ∀ e ∈ es, ∃ d, e = PyVal.dict d) (hs : ∀ s ∈ ss, ∃ d, s = PyVal.dict d) :
    parse_edit_map (PyVal.dict [("edits", PyVal.list es), ("subtitles", PyVal.list ss)]) =
      Except.ok (es.filterMap keptEdit, ss.filterMap keptSubtitle) := by
  have h2 : collectEntries parseEditEntry es = Except.ok (es.filterMap keptEdit) :=
    collectEntries_ok parseEditEntry keptEdit es
      (fun e he' => by obtain ⟨d, rfl⟩ := he e he'; exact parseEditEntry_dict d)
  have h3 : collectEntries parseSubtitleEntry ss = Except.ok (ss.filterMap keptSubtitle) :=
    collectEntries_ok parseSubtitleEntry keptSubtitle ss
      (fun s hs' => by obtain ⟨d, rfl⟩ := hs s hs'; exact parseSubtitleEntry_dict d)
  have h1 : parse_edit_map
      (PyVal.dict [("edits", PyVal.list es), ("subtitles", PyVal.list ss)]) = (do
        let edits ← collectEntries parseEditEntry es
        let subs ← collectEntries parseSubtitleEntry ss
        Except.ok (edits, subs)) := rfl
  rw [h1]
  simp only [h2, h3]
  rfl

/-- C8 witness: a document with one malformed dict edit (`end` not numeric)
and one well-formed (empty) dict edit parses successfully, keeping exactly
the well-formed entry with its defaults. -/
theorem C8_dict_entries_skipped_individually_witness :
    parse_edit_map (PyVal.dict [("edits", PyVal.list
        [PyVal.dict [("end", PyVal.str "abc")], PyVal.dict []]),
      ("subtitles", PyVal.list [])]) =
      Except.ok ([Edit.mk (PyVal.str "zoom") 0 1 0 (1 / 2) (1 / 2) (PyVal.num 1)
        (PyVal.bool false)], []) := by
  have h := C8_dict_entries_skipped_individually
    [PyVal.dict [("end", PyVal.str "abc")], PyVal.dict []] []
    (by intro e he'
        simp only [List.mem_cons, List.not_mem_nil, or_false] at he'
        rcases he' with rfl | rfl
        · exact ⟨_, rfl⟩
        · exact ⟨_, rfl⟩)
    (by intro s hs'; cases hs')
  rw [h]
  rfl

/-- C10: a dict edit entry is filled with defaults — kind "zoom", start 0.0,
end 0.0, speed 1.0, zoom 1.0, anchors 0.5 — so `{}` parses into a zoom-kind
Edit with start = end = 0.0; and the parser never enforces `end > start`:
any numeric `start`/`end` pair is accepted verbatim, including `end ≤ start`. -/
theorem C10_defaults_and_no_end_check :
    parse_edit_map (PyVal.dict [("edits", PyVal.list [PyVal.dict []])]) =
      Except.ok ([Edit.mk (PyVal.str "zoom") 0 1 0 (1 / 2) (1 / 2) (PyVal.num 1)
        (PyVal.bool false)], []) ∧
    ∀ a b : ℚ,
      parse_edit_map (PyVal.dict [("edits", PyVal.list
          [PyVal.dict [("start", PyVal.num a), ("end", PyVal.num b)]])]) =
        Except.ok ([Edit.mk (PyVal.str "zoom") b 1 a (1 / 2) (1 / 2) (PyVal.num 1)
          (PyVal.bool false)], []) :=
  ⟨rfl, fun _ _ => rfl⟩

/-- C5: for every well-formed segment (the `is_original` flag agrees with
the absence of an attached edit, as `create_segments` guarantees), the
classifier returns `can_copy = true` iff the segment is original, has no
subtitles, the debug overlay is off, the output resolution equals the
original resolution and color grading is off; otherwise `needs_processing =
true`; an attached edit with speed ≠ 1.0 or zoom outside {"none", 1.0}
forces `needs_processing = true`; and `can_copy` implies
`¬needs_processing`. -/
theorem C5_classifier (seg : Segment) (ow oh w h : ℤ) (dbg grad : Bool)
    (hwf : seg.is_original = seg.edit.isNone) :
    ((analyze_segment_processing seg ow oh w h dbg grad).2 = true ↔
      (seg.edit = Option.none ∧ seg.subtitles = [] ∧ dbg = false ∧ ow = w ∧ oh = h ∧
        grad = false)) ∧
    ((analyze_segment_processing seg ow oh w h dbg grad).2 = false →
      (analyze_segment_processing seg ow oh w h dbg grad).1 = true) ∧
    (∀ e, seg.edit = Option.some e → (e.speed ≠ 1 ∨ zoomInNoneOne e.zoom = false) →
      (analyze_segment_processing seg ow oh w h dbg grad).1 = true) ∧
    ((analyze_segment_processing seg ow oh w h dbg grad).2 = true →
      (analyze_segment_processing seg ow oh w h dbg grad).1 = false) := by
  rcases hE : seg.edit with _ | e
  · have hio : seg.is_original = true := by rw [hwf, hE]; rfl
    simp only [analyze_segment_processing, hE, hio, List.isEmpty_iff]
    split_ifs with h1 h2 <;> simp_all
  · have hio : seg.is_original = false := by rw [hwf, hE]; rfl
    simp only [analyze_segment_processing, hE, hio, List.isEmpty_iff]
    split_ifs with h1 <;> simp_all

/-- C5 witness: a concrete original segment with no subtitles, matching
resolutions and all flags off is classified copy-eligible and not needing
processing. -/
theorem C5_classifier_witness :
    (Segment.mk 10 0 false true Option.none true []).is_original =
      (Segment.mk 10 0 false true Option.none true []).edit.isNone ∧
    (analyze_segment_processing (Segment.mk 10 0 false true Option.none true [])
      1920 1080 1920 1080 false false).2 = true ∧
    (analyze_segment_processing (Segment.mk 10 0 false true Option.none true [])
      1920 1080 1920 1080 false false).1 = false := by
  have h := C5_classifier (Segment.mk 10 0 false true Option.none true [])
    1920 1080 1920 1080 false false rfl
  exact ⟨rfl, h.1.mpr ⟨rfl, rfl, rfl, rfl, rfl, rfl⟩,
    h.2.2.2 (h.1.mpr ⟨rfl, rfl, rfl, rfl, rfl, rfl⟩)⟩

/-! ### Shared lemmas: atempo stage loops -/

theorem atempoUp_of_le (v : ℚ) (h : ¬ 2 < v) : atempoUp v = ([], v) := by
  rw [atempoUp, dif_neg h]

theorem atempoDown_of_ge (v : ℚ) (h : ¬ (0 < v ∧ v < 1 / 2)) : atempoDown v = ([], v) := by
  rw [atempoDown, dif_neg h]

theorem atempoUp_spec (v : ℚ) : 0 < v →
    (∀ r ∈ (atempoUp v).1, r = 2) ∧ (atempoUp v).1.prod * (atempoUp v).2 = v ∧
      0 < (atempoUp v).2 ∧ (atempoUp v).2 ≤ 2 := by
  induction v using atempoUp.induct with
  | case1 x hx ih =>
    intro hv
    have hx2 : 0 < x / 2 := by positivity
    obtain ⟨ha, hp, hpos, hle⟩ := ih hx2
    rw [atempoUp, dif_pos hx]
    refine ⟨?_, ?_, hpos, hle⟩
    · intro r hr
      rcases List.mem_cons.mp hr with rfl | hr'
      · rfl
      · exact ha r hr'
    · simp only [List.prod_cons]
      rw [mul_assoc, hp]
      ring
  | case2 x hx =>
    intro hv
    rw [atempoUp_of_le x hx]
    exact ⟨by simp, by simp, hv, le_of_not_lt hx⟩

theorem atempoDown_spec (v : ℚ) : 0 < v → v ≤ 2 →
    (∀ r ∈ (atempoDown v).1, r = 1 / 2) ∧ (atempoDown v).1.prod * (atempoDown v).2 = v ∧
      1 / 2 ≤ (atempoDown v).2 ∧ (atempoDown v).2 ≤ 2 := by
  induction v using atempoDown.induct with
  | case1 x hx ih =>
    intro hv _
    have h1 : 0 < x * 2 := by linarith [hx.1]
    have h2 : x * 2 ≤ 2 := by linarith [hx.2]
    obtain ⟨ha, hp, hlo, hhi⟩ := ih h1 h2
    rw [atempoDown, dif_pos hx]
    refine ⟨?_, ?_, hlo, hhi⟩
    · intro r hr
      rcases List.mem_cons.mp hr with rfl | hr'
      · rfl
      · exact ha r hr'
    · simp only [List.prod_cons]
      rw [mul_assoc, hp]
      ring
  | case2 x hx =>
    intro hv h2
    rw [atempoDown_of_ge x hx]
    have hge : 1 / 2 ≤ x := by
      by_contra hlt
      exact hx ⟨hv, lt_of_not_le hlt⟩
    exact ⟨by simp, by simp, hge, h2⟩

/-- C7: for every speed factor v > 0 with audio present, the audio filter
builder terminates (returns, rather than diverging or raising), every
emitted atempo stage ratio lies in [0.5, 2.0], the product of all stage
ratios equals v, and v = 1.0 emits no atempo stage at all. -/
theorem C7_audio_stages (v : ℚ) (hv : 0 < v) :
    build_speed_filters v true = Except.ok ("setpts=" ++ decRepr (1 / v) ++ "*PTS",
      (atempoRatios v).map (fun r => "atempo=" ++ decRepr r)) ∧
    (∀ r ∈ atempoRatios v, 1 / 2 ≤ r ∧ r ≤ 2) ∧
    (atempoRatios v).prod = v ∧
    (v = 1 → atempoRatios v = []) := by
  obtain ⟨hu1, hu2, hu3, hu4⟩ := atempoUp_spec v hv
  obtain ⟨hd1, hd2, hd3, hd4⟩ := atempoDown_spec (atempoUp v).2 hu3 hu4
  refine ⟨?_, ?_, ?_, ?_⟩
  · rw [build_speed_filters, if_neg (ne_of_gt hv), if_neg ?_]
    · rfl
    · rintro ⟨-, hlt⟩
      exact absurd hlt (not_lt_of_gt hv)
  · intro r hr
    simp only [atempoRatios, List.mem_append] at hr
    rcases hr with (hr | hr) | hr
    · rw [hu1 r hr]
      norm_num
    · rw [hd1 r hr]
      norm_num
    · by_cases hc : (1 / 2 ≤ (atempoDown (atempoUp v).2).2 ∧
          (atempoDown (atempoUp v).2).2 ≤ 2) ∧ (atempoDown (atempoUp v).2).2 ≠ 1
      · rw [if_pos hc] at hr
        rcases List.mem_singleton.mp hr with rfl
        exact ⟨hd3, hd4⟩
      · rw [if_neg hc] at hr
        cases hr
  · simp only [atempoRatios, List.prod_append]
    by_cases h1 : (atempoDown (atempoUp v).2).2 = 1
    · rw [if_neg (by rintro ⟨-, hne⟩; exact hne h1), List.prod_nil]
      rw [h1, mul_one] at hd2
      rw [mul_one, hd2]
      exact hu2
    · rw [if_pos ⟨⟨hd3, hd4⟩, h1⟩, List.prod_singleton, mul_assoc, hd2]
      exact hu2
  · intro hv1
    subst hv1
    have h1 : atempoUp (1 : ℚ) = ([], 1) := atempoUp_of_le 1 (by norm_num)
    have h2 : atempoDown (1 : ℚ) = ([], 1) := atempoDown_of_ge 1 (by norm_num)
    simp [atempoRatios, h1, h2]

/-- C7 witness: speed factor 3 yields stages 2.0 and 1.5 (each in [0.5, 2],
product 3); the builder returns them as atempo filters. -/
theorem C7_audio_stages_witness :
    (0 : ℚ) < 3 ∧
    build_speed_filters 3 true = Except.ok ("setpts=" ++ decRepr (1 / 3) ++ "*PTS",
      (atempoRatios 3).map (fun r => "atempo=" ++ decRepr r)) ∧
    (atempoRatios 3).prod = 3 := by
  have h := C7_audio_stages 3 (by norm_num)
  exact ⟨by norm_num, h.1, h.2.2.1⟩

/-! ### Shared lemmas: subtitle dedup and Except inversion -/

theorem exceptBind_ok {ε α β : Type} (x : Except ε α) (f : α → Except ε β) (b : β)
    (h : x >>= f = Except.ok b) : ∃ a, x = Except.ok a ∧ f a = Except.ok b := by
  cases x with
  | ok a => exact ⟨a, rfl, h⟩
  | error e => exact absurd h (by simp [Bind.bind, Except.bind])

theorem keptSubs_aux (subs : List Subtitle) (seen : List (String × ℚ × ℚ)) :
    ((keptSubs seen subs).map subKey).Nodup ∧
    (∀ s ∈ keptSubs seen subs, subKey s ∉ seen) := by
  induction subs generalizing seen with
  | nil => simp [keptSubs]
  | cons sub rest ih =>
    by_cases h : subKey sub ∈ seen
    · rw [keptSubs, if_pos h]
      exact ih seen
    · rw [keptSubs, if_neg h]
      obtain ⟨ih1, ih2⟩ := ih (subKey sub :: seen)
      refine ⟨?_, ?_⟩
      · simp only [List.map_cons, List.nodup_cons]
        refine ⟨?_, ih1⟩
        intro hmem
        obtain ⟨s, hs, hkey⟩ := List.mem_map.mp hmem
        exact ih2 s hs (hkey ▸ List.mem_cons_self _ _)
      · intro s hs
        rcases List.mem_cons.mp hs with rfl | hs'
        · exact h
        · exact fun hin => ih2 s hs' (List.mem_cons_of_mem _ hin)

theorem keptSubs_find? (subs : List Subtitle) (seen : List (String × ℚ × ℚ))
    (k : String × ℚ × ℚ) (hk : k ∉ seen) :
    (keptSubs seen subs).find? (fun t => decide (subKey t = k)) =
      subs.find? (fun t => decide (subKey t = k)) := by
  induction subs generalizing seen with
  | nil => simp [keptSubs]
  | cons sub rest ih =>
    by_cases h : subKey sub ∈ seen
    · rw [keptSubs, if_pos h]
      have hne : ¬ (subKey sub = k) := fun he => hk (he ▸ h)
      rw [List.find?_cons_of_neg _ (by simpa using hne)]
      exact ih seen hk
    · rw [keptSubs, if_neg h]
      by_cases he : subKey sub = k
      · rw [List.find?_cons_of_pos _ (by simpa using he),
          List.find?_cons_of_pos _ (by simpa using he)]
      · rw [List.find?_cons_of_neg _ (by simpa using he),
          List.find?_cons_of_neg _ (by simpa using he)]
        refine ih (subKey sub :: seen) ?_
        intro hmem
        rcases List.mem_cons.mp hmem with h1 | h1
        · exact he h1.symm
        · exact hk h1

/-- C9: whenever the filter collector returns, its video filter list is the
edit-derived prefix followed by exactly one subtitle burn-in filter per kept
subtitle, where the kept subtitles have pairwise-distinct (text, start, end)
keys, and for each key occurring in the segment's subtitle list the kept
representative is the first subtitle in the list with that key — a second
subtitle with identical text, start and end produces no filter. -/
theorem C9_subtitle_dedup (assPathOf : Subtitle → String) (seg : Segment)
    (w h : ℤ) (audio : Bool) (v a : List String)
    (hok : get_segment_filters assPathOf seg w h audio = Except.ok (v, a)) :
    (∃ ev, v = ev ++ (keptSubs [] seg.subtitles).map
        (fun sub => build_subtitle_filter (assPathOf sub) sub seg.start w h)) ∧
    ((keptSubs [] seg.subtitles).map subKey).Nodup ∧
    (∀ s ∈ seg.subtitles,
      (keptSubs [] seg.subtitles).find? (fun t => decide (subKey t = subKey s)) =
        seg.subtitles.find? (fun t => decide (subKey t = subKey s))) := by
  refine ⟨?_, (keptSubs_aux seg.subtitles []).1,
    fun s _ => keptSubs_find? seg.subtitles [] (subKey s) (by simp)⟩
  unfold get_segment_filters at hok
  cases hE : editFilters seg w h audio with
  | error e => rw [hE] at hok; cases hok
  | ok ea =>
    rw [hE] at hok
    refine ⟨ea.1, ?_⟩
    have := (Except.ok.injEq _ _).mp hok
    exact (congrArg Prod.fst this).symm

/-- C9 witness: a segment carrying two subtitles with identical
(text, start, end) but different styles; only the first is kept, and the
kept representative of the duplicated key is the first list element. -/
theorem C9_subtitle_dedup_witness :
    ((keptSubs [] [Subtitle.mk "dup" 2 1 (PyVal.dict []) (PyVal.bool false),
        Subtitle.mk "dup" 2 1 (PyVal.str "x") (PyVal.bool false)]).map subKey).Nodup ∧
    (keptSubs [] [Subtitle.mk "dup" 2 1 (PyVal.dict []) (PyVal.bool false),
        Subtitle.mk "dup" 2 1 (PyVal.str "x") (PyVal.bool false)]).find?
        (fun t => decide (subKey t =
          subKey (Subtitle.mk "dup" 2 1 (PyVal.str "x") (PyVal.bool false)))) =
      [Subtitle.mk "dup" 2 1 (PyVal.dict []) (PyVal.bool false),
        Subtitle.mk "dup" 2 1 (PyVal.str "x") (PyVal.bool false)].find?
        (fun t => decide (subKey t =
          subKey (Subtitle.mk "dup" 2 1 (PyVal.str "x") (PyVal.bool false)))) := by
  have h := C9_subtitle_dedup (fun _ => "/tmp/a.ass")
    (Segment.mk 5 0 false true Option.none true
      [Subtitle.mk "dup" 2 1 (PyVal.dict []) (PyVal.bool false),
       Subtitle.mk "dup" 2 1 (PyVal.str "x") (PyVal.bool false)]) 1920 1080 false
    ["subtitles=filename='/tmp/a.ass'"] [] rfl
  exact ⟨h.2.1, h.2.2 (Subtitle.mk "dup" 2 1 (PyVal.str "x") (PyVal.bool false))
    (by simp)⟩

/-! ### Shared lemmas: integer truncation -/

theorem pyInt_intCast (n : ℤ) : pyInt ((n : ℚ)) = n := by
  simp [pyInt, Rat.num_intCast, Rat.den_intCast, Int.tdiv_one]


theorem editFilters_zoom_edit (e : Edit) (seg : Segment) (w h : ℤ) (audio : Bool)
    (hseg : seg.edit = Option.some e) (hspeed : e.speed = 1)
    (hcond : pyIsStr e.type "zoom" = true) (z : Option String)
    (hz : build_zoom_filter e w h = Except.ok z) :
    editFilters seg w h audio = Except.ok (z.toList, []) := by
  unfold editFilters
  rw [hseg]
  simp only [hspeed, ne_eq, not_true_eq_false, if_false, ite_false]
  rw [if_pos (Or.inl hcond), hz]
  cases z <;> rfl

theorem get_segment_filters_of_editFilters (ap : Subtitle → String) (seg : Segment)
    (w h : ℤ) (audio : Bool) (ea : List String × List String)
    (hef : editFilters seg w h audio = Except.ok ea) :
    get_segment_filters ap seg w h audio =
      Except.ok (ea.1 ++ (keptSubs [] seg.subtitles).map
        (fun sub => build_subtitle_filter (ap sub) sub seg.start w h), ea.2) := by
  unfold get_segment_filters
  rw [hef]

/-- C1 (evaluation at the failing input): the segment `[0,5)` carrying a zoom
edit (zoom 2.0, speed 1.0, anchors 0.5) and one subtitle, at 1920×1080 in
and out.  The collected video filters are the device-only
`crop_cuda/scale_cuda` zoom chain plus the subtitle burn-in; the subtitle
keyword makes `requires_cpu_filters` choose the HYBRID (host-memory) path,
and `_build_gpu_filter_chain` then places the `crop_cuda/scale_cuda` filter
between `format=nv12` and `format=yuv420p` — a device-only operation applied
to host-resident frames, with no upload before it.  This contradicts the
claim (and the function's own docstring) that HYBRID chains contain only
host-capable filters. -/
theorem C1_hybrid_chain_device_filter :
    get_segment_filters (fun _ => "/tmp/sub_0000.ass")
      (Segment.mk 5 0 false false
        (Option.some (Edit.mk (PyVal.str "zoom") 5 1 0 (1 / 2) (1 / 2) (PyVal.num 2)
          (PyVal.bool false))) true
        [Subtitle.mk "hi" 3 1 (PyVal.dict []) (PyVal.bool false)]) 1920 1080 false =
      Except.ok (["crop_cuda=960:540:480:270,scale_cuda=1920:1080",
        "subtitles=filename='/tmp/sub_0000.ass'"], []) ∧
    requires_cpu_filters ["crop_cuda=960:540:480:270,scale_cuda=1920:1080",
        "subtitles=filename='/tmp/sub_0000.ass'"] false Option.none = true ∧
    build_gpu_filter_chain
      (Segment.mk 5 0 false false
        (Option.some (Edit.mk (PyVal.str "zoom") 5 1 0 (1 / 2) (1 / 2) (PyVal.num 2)
          (PyVal.bool false))) true
        [Subtitle.mk "hi" 3 1 (PyVal.dict []) (PyVal.bool false)])
      1920 1080 1920 1080 false false 0
      ["crop_cuda=960:540:480:270,scale_cuda=1920:1080",
        "subtitles=filename='/tmp/sub_0000.ass'"] true =
      ["format=nv12", "crop_cuda=960:540:480:270,scale_cuda=1920:1080",
        "subtitles=filename='/tmp/sub_0000.ass'", "setsar=1", "format=yuv420p"] ∧
    (["format=nv12", "crop_cuda=960:540:480:270,scale_cuda=1920:1080",
        "subtitles=filename='/tmp/sub_0000.ass'", "setsar=1",
        "format=yuv420p"].any isDeviceOnlyFilter) = true := by
  have hz : build_zoom_filter
      (Edit.mk (PyVal.str "zoom") 5 1 0 (1 / 2) (1 / 2) (PyVal.num 2) (PyVal.bool false))
      1920 1080 =
      Except.ok (Option.some "crop_cuda=960:540:480:270,scale_cuda=1920:1080") := by
    have e1 : pyInt (((1920 : ℤ) : ℚ) / 2) = 960 := by
      rw [show (((1920 : ℤ) : ℚ)) / 2 = (((960 : ℤ)) : ℚ) by norm_num]
      exact pyInt_intCast 960
    have e2 : pyInt (((1080 : ℤ) : ℚ) / 2) = 540 := by
      rw [show (((1080 : ℤ) : ℚ)) / 2 = (((540 : ℤ)) : ℚ) by norm_num]
      exact pyInt_intCast 540
    unfold build_zoom_filter
    simp only [pyIsStr, pyNumVal]
    rw [if_neg (by simp), if_neg (by norm_num : ¬ (2 : ℚ) ≤ 1)]
    simp only [e1, e2]
    have e3 : pyInt ((1 / 2 : ℚ) * ((1920 : ℤ) : ℚ) - ((960 : ℤ) : ℚ) / 2) = 480 := by
      rw [show (1 / 2 : ℚ) * ((1920 : ℤ) : ℚ) - ((960 : ℤ) : ℚ) / 2 = (((480 : ℤ)) : ℚ) by
        push_cast; norm_num]
      exact pyInt_intCast 480
    have e4 : pyInt ((1 / 2 : ℚ) * ((1080 : ℤ) : ℚ) - ((540 : ℤ) : ℚ) / 2) = 270 := by
      rw [show (1 / 2 : ℚ) * ((1080 : ℤ) : ℚ) - ((540 : ℤ) : ℚ) / 2 = (((270 : ℤ)) : ℚ) by
        push_cast; norm_num]
      exact pyInt_intCast 270
    simp only [e3, e4]
    have e5 : ((0 : ℤ) ⊔ (480 ⊓ (1920 - 960))) = 480 := by omega
    have e6 : ((0 : ℤ) ⊔ (270 ⊓ (1080 - 540))) = 270 := by omega
    simp only [e5, e6]
    rfl
  refine ⟨?_, rfl, rfl, rfl⟩
  rw [get_segment_filters_of_editFilters _ _ _ _ _ _
    (editFilters_zoom_edit
      (Edit.mk (PyVal.str "zoom") 5 1 0 (1 / 2) (1 / 2) (PyVal.num 2) (PyVal.bool false))
      (Segment.mk 5 0 false false
        (Option.some (Edit.mk (PyVal.str "zoom") 5 1 0 (1 / 2) (1 / 2) (PyVal.num 2)
          (PyVal.bool false))) true
        [Subtitle.mk "hi" 3 1 (PyVal.dict []) (PyVal.bool false)])
      1920 1080 false rfl rfl rfl _ hz)]
  rfl

/-- C2 counterexample: a non-copy segment with the capability probe
reporting the encoder usable and every engine invocation failing.  The
render attempts exactly ONE invocation (the hardware command) and propagates
`RuntimeError`; no CPU-plan retry of the same segment happens before the
error is propagated — contradicting the claim. -/
theorem C2_counterexample :
    (render_segment_smart (EngineOracle.mk true (fun _ => false)) (fun _ => "/tmp/a.ass")
      (RenderArgs.mk 1 (Segment.mk 5 0 false true Option.none true []) "in.mp4"
        "temp_spliceo_v2" 30 false false 1920 1080 1920 1080 true Option.none)).2 =
      Except.error PyErr.runtimeError ∧
    (render_segment_smart (EngineOracle.mk true (fun _ => false)) (fun _ => "/tmp/a.ass")
      (RenderArgs.mk 1 (Segment.mk 5 0 false true Option.none true []) "in.mp4"
        "temp_spliceo_v2" 30 false false 1920 1080 1920 1080 true Option.none)).1.length =
      1 :=
  ⟨rfl, rfl⟩

/-- C2 (amended): when the probe reports the hardware usable and the engine
invocation for a non-copy segment fails, `render_segment_smart` attempts at
most that one invocation and propagates an error — there is no CPU retry.
The CPU-only fallback is reached only when the probe reports the encoder
unusable, and it then raises `ValueError` immediately (the
`_render_cpu_fallback` tuple-unpacking mismatch) without invoking the
engine. -/
theorem C2_no_cpu_retry (o : EngineOracle) (ap : Subtitle → String) (args : RenderArgs)
    (hgpu : o.gpuSupport = true) (hcopy : args.seg.can_copy = false)
    (hrun : ∀ c, o.run c = false) :
    ((render_segment_smart o ap args).1.length ≤ 1 ∧
      ∃ e, (render_segment_smart o ap args).2 = Except.error e) ∧
    (∀ o2 : EngineOracle, o2.gpuSupport = false →
      render_segment_smart o2 ap args = ([], Except.error PyErr.valueError)) := by
  constructor
  · unfold render_segment_smart
    rw [hcopy, hgpu]
    simp only [Bool.false_and, Bool.not_true, Bool.false_eq_true, if_false]
    cases hG : get_segment_filters ap args.seg args.out_w args.out_h args.has_audio with
    | error e => exact ⟨by simp, e, rfl⟩
    | ok rv => exact ⟨by simp, PyErr.runtimeError, by simp [hrun]⟩
  · intro o2 h2
    unfold render_segment_smart _render_cpu_fallback
    rw [hcopy, h2]
    simp

/-- C2 witness: concrete instantiation of the amended theorem (probe usable,
all invocations failing, non-copy segment). -/
theorem C2_no_cpu_retry_witness :
    ((render_segment_smart (EngineOracle.mk true (fun _ => false)) (fun _ => "/tmp/a.ass")
        (RenderArgs.mk 2 (Segment.mk 8 3 false true Option.none true []) "in.mp4"
          "temp_spliceo_v2" 30 false false 1920 1080 1920 1080 true Option.none)).1.length ≤ 1 ∧
      ∃ e, (render_segment_smart (EngineOracle.mk true (fun _ => false)) (fun _ => "/tmp/a.ass")
        (RenderArgs.mk 2 (Segment.mk 8 3 false true Option.none true []) "in.mp4"
          "temp_spliceo_v2" 30 false false 1920 1080 1920 1080 true Option.none)).2 =
        Except.error e) ∧
    (∀ o2 : EngineOracle, o2.gpuSupport = false →
      render_segment_smart o2 (fun _ => "/tmp/a.ass")
        (RenderArgs.mk 2 (Segment.mk 8 3 false true Option.none true []) "in.mp4"
          "temp_spliceo_v2" 30 false false 1920 1080 1920 1080 true Option.none) =
        ([], Except.error PyErr.valueError)) :=
  C2_no_cpu_retry (EngineOracle.mk true (fun _ => false)) (fun _ => "/tmp/a.ass")
    (RenderArgs.mk 2 (Segment.mk 8 3 false true Option.none true []) "in.mp4"
      "temp_spliceo_v2" 30 false false 1920 1080 1920 1080 true Option.none)
    rfl rfl (fun _ => rfl)

/-- C6 counterexample: one copy-eligible segment of duration 100 s renders
and concatenates successfully while the media prober reports the
concatenated output's duration as 0 s — a discrepancy of 100 s.  The
assembler still returns success: no duration verification step exists, and
the discrepancy is silently accepted, contradicting the claim. -/
theorem C6_counterexample :
    (render_final_video (EngineOracle.mk true (fun _ => true))
      (ProbeOracle.mk (fun _ => 1920) (fun _ => 1080) (fun _ => 0) (fun _ => 30)
        (fun _ => false) (fun _ => 0))
      (fun _ => "/tmp/a.ass") [Segment.mk 100 0 true true Option.none false []]
      "in.mp4" "out.mp4" "original" true Option.none).isOk = true ∧
    ([Segment.mk 100 0 true true Option.none false []].map Segment.duration).sum = 100 ∧
    (ProbeOracle.mk (fun _ => 1920) (fun _ => 1080) (fun _ => 0) (fun _ => 30)
      (fun _ => false) (fun _ => 0)).durationOf "out.mp4" = 0 :=
  ⟨rfl, by simp [Segment.duration], rfl⟩

/-- C6 (amended): after concatenation the assembler records only the output
size and timing; it never consults the duration prober for the produced
file and performs no comparison against the sum of rendered segment
durations — the whole orchestration's result is independent of the duration
collaborator, so any discrepancy is silently accepted. -/
theorem C6_no_duration_verification (o : EngineOracle) (probe : ProbeOracle)
    (d : String → ℚ) (ap : Subtitle → String) (segs : List Segment)
    (inp outp res : String) (paid : Bool) (wm : Option String) :
    render_final_video o { probe with durationOf := d } ap segs inp outp res paid wm =
      render_final_video o probe ap segs inp outp res paid wm := rfl

/-! ### Shared lemmas: orchestrator collection -/

theorem collectResultsInOrder_ok (rs : List (Except PyErr String)) (xs : List String)
    (h : collectResultsInOrder rs = Except.ok xs) : ∀ r ∈ rs, ∃ x, r = Except.ok x := by
  induction rs generalizing xs with
  | nil => intro r hr; cases hr
  | cons r rest ih =>
    intro r' hr'
    simp only [collectResultsInOrder] at h
    obtain ⟨x, hx, h2⟩ := exceptBind_ok _ _ _ h
    obtain ⟨ys, hys, -⟩ := exceptBind_ok _ _ _ h2
    rcases List.mem_cons.mp hr' with rfl | hmem
    · exact ⟨x, hx⟩
    · exact ih ys hys r' hmem

/-- C3 counterexample: two segments; the engine oracle succeeds on short
commands (the stream-copy and concat invocations) and fails on the long
hardware-encode command.  Segment 0 (copy-eligible) renders successfully on
its own, yet the active orchestrator `render_final_video` aborts the whole
job with the propagated error instead of concatenating the surviving
segment and reporting index 1 as failed — contradicting the claim. -/
theorem C3_counterexample :
    (render_segment_smart (EngineOracle.mk true (fun c => decide (c.length < 20)))
      (fun _ => "/tmp/a.ass")
      (RenderArgs.mk 0 (Segment.mk 100 0 true true Option.none false []) "in.mp4"
        "temp_spliceo_v2" 30 false false 1920 1080 1920 1080 true Option.none)).2 =
      Except.ok "temp_spliceo_v2/seg_0000.mp4" ∧
    render_final_video (EngineOracle.mk true (fun c => decide (c.length < 20)))
      (ProbeOracle.mk (fun _ => 1920) (fun _ => 1080) (fun _ => 0) (fun _ => 30)
        (fun _ => false) (fun _ => 0))
      (fun _ => "/tmp/a.ass")
      [Segment.mk 100 0 true true Option.none false [],
       Segment.mk 120 100 false true Option.none true []]
      "in.mp4" "out.mp4" "original" true Option.none = Except.error PyErr.runtimeError :=
  ⟨rfl, rfl⟩

/-- C3 (amended): only the legacy orchestrator (handler.py) tolerates
partial failure: it records failed indices and proceeds to concatenate the
successful segments (sorted by index) whenever at least one segment
rendered, raising only when none did — and it merely prints the failed
indices rather than returning them.  The active orchestrator
(processor/final_renderer.py) requires every segment to succeed: a success
result implies every per-segment render returned a path, so any one failure
aborts the job. -/
theorem C3_partial_failure (outcomes : List (Except PyErr String)) (concatOk : Bool)
    (hsome : (handlerCollect outcomes).1 ≠ []) (hc : concatOk = true) :
    (handler_render_final_video outcomes concatOk).2 =
      Except.ok (sortByFst (handlerCollect outcomes).1) ∧
    (handler_render_final_video outcomes concatOk).1 = (handlerCollect outcomes).2 ∧
    (∀ outcomes2 concatOk2, (handlerCollect outcomes2).1 = [] →
      (handler_render_final_video outcomes2 concatOk2).2 = Except.error PyErr.runtimeError) ∧
    (∀ (o : EngineOracle) (probe : ProbeOracle) (ap : Subtitle → String)
        (segs : List Segment) (inp outp res : String) (paid : Bool)
        (wm : Option String) (r : FinalReport),
      render_final_video o probe ap segs inp outp res paid wm = Except.ok r →
      ∀ a ∈ mkRenderArgs probe segs inp res paid wm,
        ∃ f, (render_segment_smart o ap a).2 = Except.ok f) := by
  refine ⟨?_, ?_, ?_, ?_⟩
  · unfold handler_render_final_video
    rw [if_neg (by simpa using hsome), hc, if_pos rfl]
  · unfold handler_render_final_video
    rw [if_neg (by simpa using hsome), hc, if_pos rfl]
  · intro outcomes2 concatOk2 hnone
    unfold handler_render_final_video
    rw [if_pos (by simpa using hnone)]
  · intro o probe ap segs inp outp res paid wm r hr a ha
    simp only [render_final_video] at hr
    cases hcoll : collectResultsInOrder
        ((mkRenderArgs probe segs inp res paid wm).map
          (fun a => (render_segment_smart o ap a).2)) with
    | error e => rw [hcoll] at hr; cases hr
    | ok files =>
      have := collectResultsInOrder_ok _ _ hcoll
        ((render_segment_smart o ap a).2)
        (List.mem_map.mpr ⟨a, ha, rfl⟩)
      exact this

/-- C3 witness: one successful and one failed per-segment outcome; the
legacy orchestrator proceeds with the success and records index 1 as
failed. -/
theorem C3_partial_failure_witness :
    (handler_render_final_video [Except.ok "seg0.mp4", Except.error PyErr.runtimeError]
      true).2 =
      Except.ok (sortByFst
        (handlerCollect [Except.ok "seg0.mp4", Except.error PyErr.runtimeError]).1) ∧
    (handler_render_final_video [Except.ok "seg0.mp4", Except.error PyErr.runtimeError]
      true).1 =
      (handlerCollect [Except.ok "seg0.mp4", Except.error PyErr.runtimeError]).2 := by
  have h := C3_partial_failure [Except.ok "seg0.mp4", Except.error PyErr.runtimeError]
    true (by decide) rfl
  exact ⟨h.1, h.2.1⟩

/-! ### Shared lemmas: timeline builder -/

theorem sort_eq_of (s : Finset ℚ) (l : List ℚ) (hs : l.Sorted (· ≤ ·)) (hn : l.Nodup)
    (hm : ∀ a, a ∈ s ↔ a ∈ l) : s.sort (· ≤ ·) = l := by
  have hperm : List.Perm (s.sort (· ≤ ·)) l := by
    apply List.perm_of_nodup_nodup_toFinset_eq (Finset.sort_nodup _ _) hn
    ext a
    simp [Finset.mem_sort, hm]
  exact List.eq_of_perm_of_sorted hperm (Finset.sort_sorted _ _) hs

theorem boundarySet_init_subset (edits : List Edit) (t : ℚ) (init : Finset ℚ) :
    init ⊆ edits.foldl
      (fun s e => insert (clampB e.start t) (insert (clampB e.stop t) s)) init := by
  induction edits generalizing init with
  | nil => exact Finset.Subset.refl _
  | cons e es ih =>
    rw [List.foldl_cons]
    refine Finset.Subset.trans ?_ (ih _)
    intro a ha
    exact Finset.mem_insert_of_mem (Finset.mem_insert_of_mem ha)

theorem mem_boundarySet_zero (edits : List Edit) (t : ℚ) : (0:ℚ) ∈ boundarySet edits t :=
  boundarySet_init_subset edits t _ (Finset.mem_insert_self 0 {t})

theorem mem_boundarySet_total (edits : List Edit) (t : ℚ) : t ∈ boundarySet edits t :=
  boundarySet_init_subset edits t _ (Finset.mem_insert_of_mem (Finset.mem_singleton_self t))

theorem boundarySet_bounds (edits : List Edit) (t : ℚ) (ht : 0 ≤ t) :
    ∀ a ∈ boundarySet edits t, 0 ≤ a ∧ a ≤ t := by
  have hc : ∀ x : ℚ, 0 ≤ clampB x t ∧ clampB x t ≤ t := fun x =>
    ⟨le_max_left _ _, max_le ht (min_le_right _ _)⟩
  have hgen : ∀ (es : List Edit) (init : Finset ℚ),
      (∀ a ∈ init, 0 ≤ a ∧ a ≤ t) →
      ∀ a ∈ es.foldl
        (fun s e => insert (clampB e.start t) (insert (clampB e.stop t) s)) init,
        0 ≤ a ∧ a ≤ t := by
    intro es
    induction es with
    | nil => intro init h a ha; exact h a ha
    | cons e es ih =>
      intro init h a ha
      rw [List.foldl_cons] at ha
      refine ih _ ?_ a ha
      intro b hb
      rcases Finset.mem_insert.mp hb with rfl | hb'
      · exact hc _
      · rcases Finset.mem_insert.mp hb' with rfl | hb''
        · exact hc _
        · exact h b hb''
  intro a ha
  refine hgen edits _ ?_ a ha
  intro b hb
  rcases Finset.mem_insert.mp hb with rfl | hb'
  · exact ⟨le_refl 0, ht⟩
  · rw [Finset.mem_singleton] at hb'
    rw [hb']
    exact ⟨ht, le_refl t⟩

theorem pairsOf_mem : ∀ (l : List ℚ) (q : ℚ × ℚ), q ∈ pairsOf l → q.1 ∈ l ∧ q.2 ∈ l := by
  intro l
  induction l with
  | nil => intro q hq; simp [pairsOf] at hq
  | cons a l ih =>
    intro q hq
    cases l with
    | nil => simp [pairsOf] at hq
    | cons b rest =>
      rw [pairsOf] at hq
      rcases List.mem_cons.mp hq with rfl | hq'
      · exact ⟨List.mem_cons_self _ _, List.mem_cons_of_mem _ (List.mem_cons_self _ _)⟩
      · obtain ⟨h1, h2⟩ := ih q hq'
        exact ⟨List.mem_cons_of_mem _ h1, List.mem_cons_of_mem _ h2⟩

theorem pairsOf_pairwise : ∀ l : List ℚ, l.Sorted (· ≤ ·) →
    (pairsOf l).Pairwise (fun p q : ℚ × ℚ => p.2 ≤ q.1) := by
  intro l
  induction l with
  | nil => intro _; simp [pairsOf]
  | cons a l ih =>
    intro hs
    cases l with
    | nil => simp [pairsOf]
    | cons b rest =>
      rw [pairsOf]
      have hsbr : (b :: rest).Sorted (· ≤ ·) := (List.sorted_cons.mp hs).2
      refine List.Pairwise.cons ?_ (ih hsbr)
      intro q hq
      have hm := (pairsOf_mem _ q hq).1
      rcases List.mem_cons.mp hm with h | h
      · exact le_of_eq h.symm
      · exact (List.sorted_cons.mp hsbr).1 _ h

theorem pairsOf_sum (xs : List ℚ) (x : ℚ) :
    ((pairsOf (x :: xs)).map (fun p : ℚ × ℚ => p.2 - p.1)).sum = xs.getLastD x - x := by
  induction xs generalizing x with
  | nil => simp [pairsOf]
  | cons y ys ih =>
    rw [pairsOf, List.map_cons, List.sum_cons, ih y, List.getLastD_cons]
    ring

theorem getLastD_mem : ∀ (xs : List ℚ) (x : ℚ), xs.getLastD x ∈ x :: xs := by
  intro xs
  induction xs with
  | nil => intro x; simp
  | cons y ys ih =>
    intro x
    rw [List.getLastD_cons]
    rcases List.mem_cons.mp (ih y) with h | h
    · rw [h]; exact List.mem_cons_of_mem _ (List.mem_cons_self _ _)
    · exact List.mem_cons_of_mem _ (List.mem_cons_of_mem _ h)

theorem sorted_le_getLastD : ∀ (xs : List ℚ) (x a : ℚ),
    (x :: xs).Sorted (· ≤ ·) → a ∈ x :: xs → a ≤ xs.getLastD x := by
  intro xs
  induction xs with
  | nil =>
    intro x a _ ha
    rcases List.mem_cons.mp ha with h | h
    · simpa using le_of_eq h
    · cases h
  | cons y ys ih =>
    intro x a hs ha
    rw [List.getLastD_cons]
    have hs' : (y :: ys).Sorted (· ≤ ·) := (List.sorted_cons.mp hs).2
    have hyl : y ≤ ys.getLastD y := ih y y hs' (List.mem_cons_self _ _)
    rcases List.mem_cons.mp ha with h | h
    · have hxy : x ≤ y := (List.sorted_cons.mp hs).1 y (List.mem_cons_self _ _)
      exact le_trans (le_trans (le_of_eq h) hxy) hyl
    · exact ih y a hs' h

theorem filter_sum_split (l : List (ℚ × ℚ)) (p : ℚ × ℚ → Bool) :
    ((l.filter p).map (fun q : ℚ × ℚ => q.2 - q.1)).sum
      + ((l.filter (fun q => !(p q))).map (fun q : ℚ × ℚ => q.2 - q.1)).sum
      = (l.map (fun q : ℚ × ℚ => q.2 - q.1)).sum := by
  induction l with
  | nil => simp
  | cons a l ih =>
    by_cases hp : p a = true
    · simp [List.filter_cons, hp]
      linarith [ih]
    · rw [Bool.not_eq_true] at hp
      simp [List.filter_cons, hp]
      linarith [ih]

theorem create_segments_map_duration (edits : List Edit) (subtitles : List Subtitle)
    (t : ℚ) (ow oh tw th : ℤ) :
    (create_segments edits subtitles t ow oh tw th).map Segment.duration =
      ((pairsOf (sortedPoints edits t)).filter
        (fun p => !(decide (p.2 - p.1 < 1 / 1000) || is_cut edits p.1 p.2))).map
        (fun p : ℚ × ℚ => p.2 - p.1) := by
  simp only [create_segments]
  rw [List.map_map]
  refine List.map_congr_left ?_
  intro p _
  rfl

/-- C4 counterexample: a 10-second timeline with one zoom edit at
[0.0009, 0.0018] and no cut edits.  The builder drops the two sub-ε
boundary gaps [0, 0.0009] and [0.0009, 0.0018], so the emitted segments'
durations sum to 10 − 0.0018; with no cut-kind edits the claim demands the
sum equal 10 within ε = 0.001, yet the deficit 0.0018 exceeds ε. -/
theorem C4_counterexample :
    (0:ℚ) < 10 ∧
    (∀ e ∈ [ce4], pyIsStr e.type "cut" = false) ∧
    ((create_segments [ce4] [] 10 1920 1080 1920 1080).map Segment.duration).sum
      = 10 - 9/5000 ∧
    (1:ℚ)/1000 < 9/5000 := by
  refine ⟨by norm_num, ?_, ?_, by norm_num⟩
  · intro e he
    rw [List.mem_singleton] at he
    subst he
    rfl
  · have hc1 : clampB ce4.start 10 = 9/10000 := by
      show max 0 (min ((9:ℚ)/10000) 10) = 9/10000
      rw [min_eq_left (by norm_num), max_eq_right (by norm_num)]
    have hc2 : clampB ce4.stop 10 = 9/5000 := by
      show max 0 (min ((9:ℚ)/5000) 10) = 9/5000
      rw [min_eq_left (by norm_num), max_eq_right (by norm_num)]
    have hsp : sortedPoints [ce4] 10 = [0, 9/10000, 9/5000, 10] := by
      apply sort_eq_of
      · norm_num [List.sorted_cons]
      · norm_num [List.nodup_cons]
      · intro a
        simp only [boundarySet, List.foldl_cons, List.foldl_nil]
        rw [hc1, hc2]
        simp only [Finset.mem_insert, Finset.mem_singleton, List.mem_cons,
          List.not_mem_nil, or_false]
        tauto
    have hcut : ∀ a b : ℚ, is_cut [ce4] a b = false := fun a b => rfl
    have hw1 : ((9:ℚ)/10000 - 0 < 1/1000) := by norm_num
    have hw2 : ((9:ℚ)/5000 - 9/10000 < 1/1000) := by norm_num
    have hw3 : ¬((10:ℚ) - 9/5000 < 1/1000) := by norm_num
    rw [create_segments_map_duration, hsp]
    rw [show pairsOf [0, 9/10000, 9/5000, (10:ℚ)] =
      [(0, 9/10000), (9/10000, 9/5000), (9/5000, 10)] from rfl]
    simp [List.filter_cons, hcut, hw1, hw2, hw3]
    norm_num

/-- C4 (amended): for `total_duration > 0` the emitted segments are pairwise
non-overlapping in timeline order, every emitted segment's duration is at
least the ε = 0.001 s threshold (in particular strictly positive), and the
segments' durations together with the widths of the dropped inter-boundary
intervals account exactly for `total_duration`; every dropped interval is
either narrower than ε or overlaps a cut-kind edit.  (The claim's ε-bound on
the total — durations summing to `total_duration` minus cut-removed time
within 0.001 s — does not hold: dropped sub-ε gaps can accumulate beyond any
fixed tolerance, as the counterexample shows.) -/
theorem C4_segments (edits : List Edit) (subtitles : List Subtitle) (total_duration : ℚ)
    (orig_w orig_h out_w out_h : ℤ) (h : 0 < total_duration) :
    (create_segments edits subtitles total_duration orig_w orig_h out_w out_h).Pairwise
      (fun a b => a.stop ≤ b.start) ∧
    (∀ s ∈ create_segments edits subtitles total_duration orig_w orig_h out_w out_h,
      1/1000 ≤ s.duration) ∧
    ((create_segments edits subtitles total_duration orig_w orig_h out_w out_h).map
        Segment.duration).sum
      + ((discardedPairs edits total_duration).map (fun p : ℚ × ℚ => p.2 - p.1)).sum
      = total_duration ∧
    (∀ p ∈ discardedPairs edits total_duration,
      p.2 - p.1 < 1/1000 ∨ is_cut edits p.1 p.2 = true) := by
  have hsort : (sortedPoints edits total_duration).Sorted (· ≤ ·) :=
    Finset.sort_sorted _ _
  have h0 : (0:ℚ) ∈ sortedPoints edits total_duration :=
    (Finset.mem_sort _).mpr (mem_boundarySet_zero edits total_duration)
  have hT : total_duration ∈ sortedPoints edits total_duration :=
    (Finset.mem_sort _).mpr (mem_boundarySet_total edits total_duration)
  have hbd : ∀ a ∈ sortedPoints edits total_duration, 0 ≤ a ∧ a ≤ total_duration :=
    fun a ha => boundarySet_bounds edits total_duration h.le a ((Finset.mem_sort _).mp ha)
  refine ⟨?_, ?_, ?_, ?_⟩
  · simp only [create_segments]
    rw [List.pairwise_map]
    exact List.Pairwise.imp (fun hpq => hpq)
      (List.Pairwise.sublist (List.filter_sublist _) (pairsOf_pairwise _ hsort))
  · intro s hs
    simp only [create_segments] at hs
    obtain ⟨p, hp, rfl⟩ := List.mem_map.mp hs
    have hcond := (List.mem_filter.mp hp).2
    simp only [Bool.not_eq_true', Bool.or_eq_false_iff, decide_eq_false_iff_not] at hcond
    exact not_lt.mp hcond.1
  · rw [create_segments_map_duration]
    obtain ⟨x, xs, hxxs⟩ :
        ∃ x xs, sortedPoints edits total_duration = x :: xs := by
      cases hc : sortedPoints edits total_duration with
      | nil => rw [hc] at h0; cases h0
      | cons a as => exact ⟨a, as, rfl⟩
    have hsorted' : (x :: xs).Sorted (· ≤ ·) := hxxs ▸ hsort
    have h0' : (0:ℚ) ∈ x :: xs := hxxs ▸ h0
    have hT' : total_duration ∈ x :: xs := hxxs ▸ hT
    have hbd' : ∀ a ∈ x :: xs, 0 ≤ a ∧ a ≤ total_duration := hxxs ▸ hbd
    have hx0 : x = 0 := by
      refine le_antisymm ?_ ((hbd' x (List.mem_cons_self _ _)).1)
      rcases List.mem_cons.mp h0' with hh | hh
      · exact le_of_eq hh.symm
      · exact (List.sorted_cons.mp hsorted').1 0 hh
    have hlast : xs.getLastD x = total_duration :=
      le_antisymm ((hbd' _ (getLastD_mem xs x)).2)
        (sorted_le_getLastD xs x total_duration hsorted' hT')
    rw [hxxs]
    have hsplit := filter_sum_split (pairsOf (x :: xs))
      (fun p : ℚ × ℚ => !(decide (p.2 - p.1 < 1 / 1000) || is_cut edits p.1 p.2))
    simp only [Bool.not_not] at hsplit
    have hdp : discardedPairs edits total_duration =
        (pairsOf (x :: xs)).filter
          (fun p : ℚ × ℚ => decide (p.2 - p.1 < 1 / 1000) || is_cut edits p.1 p.2) := by
      simp only [discardedPairs]
      rw [hxxs]
    rw [hdp, hsplit, pairsOf_sum, hlast, hx0, sub_zero]
  · intro p hp
    simp only [discardedPairs] at hp
    have hc := (List.mem_filter.mp hp).2
    by_cases hd : p.2 - p.1 < 1/1000
    · exact Or.inl hd
    · right
      have hd' : decide (p.2 - p.1 < 1/1000) = false := decide_eq_false hd
      rw [hd', Bool.false_or] at hc
      exact hc

/-- C4 witness: the empty timeline of length 1 s. -/
theorem C4_segments_witness :
    (0:ℚ) < 1 ∧
    ((create_segments [] [] 1 1920 1080 1920 1080).Pairwise
        (fun a b => a.stop ≤ b.start) ∧
      (∀ s ∈ create_segments [] [] 1 1920 1080 1920 1080, 1/1000 ≤ s.duration) ∧
      ((create_segments [] [] 1 1920 1080 1920 1080).map Segment.duration).sum
        + ((discardedPairs [] 1).map (fun p : ℚ × ℚ => p.2 - p.1)).sum = 1 ∧
      (∀ p ∈ discardedPairs [] 1, p.2 - p.1 < 1/1000 ∨ is_cut [] p.1 p.2 = true)) :=
  ⟨by norm_num, C4_segments [] [] 1 1920 1080 1920 1080 (by norm_num)⟩
